import Mathlib

/-!
Verification of the facesheet field-extraction core (src/main.py).

The Python source is shallowly embedded below. Python strings are Lean
`String`s, but the primitive operations (`str.lower`, `str.startswith`,
`str.split`, `str.strip`, `", ".join`, `in`) are re-implemented by structural
recursion over `String.data` so that every definition is executable and
kernel-reducible; each is documented with the Python primitive it models
(ASCII case mapping suffices here, since all labels in the program are ASCII).
Python exceptions (IndexError from parallel-array indexing, ValueError from
tuple unpacking, AttributeError from `None.strip()`) are modelled by `Option`:
`none` means the Python call raises.
-/

namespace Facesheet

/-- Models Python `str.lower` on one character (ASCII range, which covers every
character compared case-insensitively in the source). -/
def lowerChar (c : Char) : Char :=
  if 'A' ≤ c ∧ c ≤ 'Z' then Char.ofNat (c.toNat + 32) else c

/-- Models Python `s.startswith(p)` on the character lists: `beginsWith s p`
is true when `p` is an initial segment of `s`. -/
def beginsWith : List Char → List Char → Bool
  | _, [] => true
  | [], _ :: _ => false
  | c :: cs, p :: ps => (p = c) && beginsWith cs ps

/-- Models Python `s.split(sep)` for a one-character separator: maximal split,
empty pieces kept, and the result is never the empty list (`"".split(sep)`
is `[""]`). -/
def splitChar (sep : Char) : List Char → List (List Char)
  | [] => [[]]
  | c :: cs =>
    match splitChar sep cs with
    | [] => [[c]]
    | h :: t => if c = sep then [] :: h :: t else (c :: h) :: t

/-- The whitespace characters stripped by Python `str.strip` (ASCII subset). -/
def isSpaceChar (c : Char) : Bool := c = ' ' || c = '\t' || c = '\n' || c = '\r'

/-- Models Python `str.strip` on a character list. -/
def trimChars (s : List Char) : List Char :=
  ((s.dropWhile isSpaceChar).reverse.dropWhile isSpaceChar).reverse

/-- Python `s.lower()`. -/
def pyLower (s : String) : String := ⟨s.data.map lowerChar⟩

/-- Python `s.startswith(p)`. -/
def pyStartsWith (s p : String) : Bool := beginsWith s.data p.data

/-- Python `s.split(sep)` for a one-character separator `sep`. -/
def pySplit (sep : Char) (s : String) : List String := (splitChar sep s.data).map String.mk

/-- Python `s.strip()`. -/
def pyStrip (s : String) : String := ⟨trimChars s.data⟩

/-- Python `sep.join(l)`. -/
def pyJoin (sep : String) : List String → String
  | [] => ""
  | [s] => s
  | s :: s2 :: rest => s ++ sep ++ pyJoin sep (s2 :: rest)

/-- The name decomposer `name_parser` of src/main.py lines 69-95 (renamed, the
suffix aside, to fit this file's conventions). `none` models the raised
exceptions of the source: `text.split(",")` unpacked into exactly two
variables raises `ValueError` unless the split has exactly two parts, and the
`else` branch of the comma notation assigns `last_name = None`, so the final
`last_name.strip()` raises `AttributeError`. -/
def nameParse (text : String) : Option (String × String × String) :=
  if ',' ∈ text.data then
    match pySplit ',' text with
    | [last_name, remaining_part] =>
      match pySplit ' ' (pyStrip remaining_part) with
      | [f, m] => some (pyStrip f, pyStrip m, pyStrip last_name)
      | [f] => some (pyStrip f, pyStrip "", pyStrip last_name)
      | _ => none
    | _ => none
  else
    match pySplit ' ' text with
    | [f, m, l] => some (pyStrip f, pyStrip m, pyStrip l)
    | [f, m] => some (pyStrip f, pyStrip m, pyStrip "")
    | [f] => some (pyStrip f, pyStrip "", pyStrip "")
    | _ => some (pyStrip "", pyStrip "", pyStrip "")

/-- One recognized token as consumed by the extraction loops: its text and the
top-left corner of its bounding box. The source also reads a width and a
height per token, but never uses them afterwards (they only ride along in
`target_box` and `candidate_boxes`), so they are not stored; the reads
themselves are still modelled in `readPoint`, because they can raise. -/
structure Tok where
  text : String
  x : Int
  y : Int
  deriving DecidableEq, Repr

/-- The OCR data dictionary of parallel arrays (`pytesseract` output), one
entry per token: `level`, `text`, `left`, `top`, `width`, `height`, `conf`.
Only `len(data["level"])` is read from `level`; `conf` is present in the data
but never read by any extraction function. -/
structure OcrData where
  level : List Int
  text : List String
  left : List Int
  top : List Int
  width : List Int
  height : List Int
  conf : List Int

/-- The token-source contract (spec section 6): the parallel arrays are
index-aligned, one entry per token. -/
def WF (d : OcrData) : Prop :=
  d.text.length = d.level.length ∧ d.left.length = d.level.length ∧
  d.top.length = d.level.length ∧ d.width.length = d.level.length ∧
  d.height.length = d.level.length ∧ d.conf.length = d.level.length

instance (d : OcrData) : Decidable (WF d) := by unfold WF; infer_instance

/-- The per-iteration reads
`text = data["text"][point]` and
`x, y, w, h = data["left"][point], data["top"][point], data["width"][point],
data["height"][point]` shared by both loops of every extraction function;
`none` models `IndexError`. The width and height values are read (and can
raise) but are dropped, since nothing downstream uses them. -/
def readPoint (d : OcrData) (p : Nat) : Option Tok := do
  let t ← d.text.get? p
  let x ← d.left.get? p
  let y ← d.top.get? p
  let _ ← d.width.get? p
  let _ ← d.height.get? p
  return ⟨t, x, y⟩

/-- The label-search loop (first loop of `extract_field`, src/main.py lines
171-177): scan points `p, p+1, ...` for `fuel` steps and return the first
token whose lowercased text starts with `lab` (the already-lowercased label),
as the `break` leaves `target_box`/`field_label` set to that token. `some
none` models falling off the loop with `target_box = None`; `none` models a
raised `IndexError`. -/
def findLabel (lab : String) (d : OcrData) : Nat → Nat → Option (Option Tok)
  | _, 0 => some none
  | p, fuel + 1 =>
    match readPoint d p with
    | none => none
    | some tok =>
      if pyStartsWith (pyLower tok.text) lab then some (some tok)
      else findLabel lab d (p + 1) fuel

/-- The second loop's reads (src/main.py lines 180-182): every point is read
in index order (no `break`), so the loop is modelled as materializing the
token list and filtering it afterwards. -/
def collectToks (d : OcrData) : Nat → Nat → Option (List Tok)
  | _, 0 => some []
  | p, fuel + 1 =>
    match readPoint d p with
    | none => none
    | some tok => (collectToks d (p + 1) fuel).map (tok :: ·)

/-- The candidate condition of `extract_field` (src/main.py lines 183-184):
`abs(y - target_box[1]) < 10 and text != field_label and ":" not in text and
0 < x - target_box[0] < field_width`. `':' ∈ t.text.data` models the Python
substring test `":" in text` for the one-character needle. -/
def candidateTest (fieldLabel : String) (lx ly fieldWidth : Int) (t : Tok) : Bool :=
  decide (|t.y - ly| < 10) && decide (t.text ≠ fieldLabel) &&
    decide (':' ∉ t.text.data) && decide (0 < t.x - lx) && decide (t.x - lx < fieldWidth)

/-- Stable insertion by x-coordinate: an element is inserted after every
already-placed element whose key is not greater, which reproduces the stable
semantics of Python `sorted(..., key=lambda x: x[1][0])`. -/
def insertByX (t : Tok) : List Tok → List Tok
  | [] => [t]
  | u :: us => if u.x < t.x then u :: insertByX t us else t :: u :: us

/-- Python `sorted(candidate_boxes, key=lambda x: x[1][0])`: a stable sort by
ascending x-coordinate. -/
def sortByX : List Tok → List Tok
  | [] => []
  | t :: ts => insertByX t (sortByX ts)

/-- The surviving, ordered candidates of `extract_field`: the filter of lines
183-185 followed by the sort of line 186. -/
def surviving (fieldLabel : String) (lx ly fieldWidth : Int) (toks : List Tok) : List Tok :=
  sortByX (toks.filter (candidateTest fieldLabel lx ly fieldWidth))

/-- The value-assembly stage of `extract_field` (src/main.py lines 178-188)
given the already-located label token: filter, sort by x, and
`" ".join(x[0] for x in candidate_boxes)`. -/
def associate (fieldLabel : String) (lx ly fieldWidth : Int) (toks : List Tok) : String :=
  pyJoin " " ((surviving fieldLabel lx ly fieldWidth toks).map Tok.text)

/-- `extract_field(label, field_width, data)` of src/main.py lines 167-188.
When no label token is found the candidate list stays empty and the join of
nothing, the empty string, is returned (a four-tuple `target_box` is always
truthy in Python, so `if target_box:` is exactly the `None` test). -/
def extract_field (label : String) (field_width : Int) (d : OcrData) : Option String :=
  match findLabel (pyLower label) d 0 d.level.length with
  | none => none
  | some none => some (pyJoin " " [])
  | some (some lab) =>
    match collectToks d 0 d.level.length with
    | none => none
    | some toks => some (associate lab.text lab.x lab.y field_width toks)

/-- The candidate condition of `extract_name` (src/main.py line 114):
`abs(y - target_box[1]) < 10 and text != field_label and
0 < x - target_box[0] < 500` — unlike `extract_field`, there is no
`":" not in text` conjunct. -/
def nameCandTest (fieldLabel : String) (lx ly : Int) (t : Tok) : Bool :=
  decide (|t.y - ly| < 10) && decide (t.text ≠ fieldLabel) &&
    decide (0 < t.x - lx) && decide (t.x - lx < 500)

/-- The value string assembled by `extract_name` (src/main.py lines 98-117):
label `"name"`, width bound 500, and no colon filter. -/
def extract_name_value (d : OcrData) : Option String :=
  match findLabel "name" d 0 d.level.length with
  | none => none
  | some none => some (pyJoin " " [])
  | some (some lab) =>
    match collectToks d 0 d.level.length with
    | none => none
    | some toks =>
      some (pyJoin " " ((sortByX (toks.filter (nameCandTest lab.text lab.x lab.y))).map Tok.text))

/-- `extract_name(image, data)` of src/main.py lines 98-118: the assembled
value string fed to the name decomposer. -/
def extract_name (d : OcrData) : Option (String × String × String) :=
  (extract_name_value d).bind nameParse

/-! ### Helper lemmas about the sorting stage and the join -/

theorem insertByX_perm (t : Tok) (l : List Tok) : (insertByX t l).Perm (t :: l) := by
  induction l with
  | nil => exact List.Perm.refl _
  | cons u us ih =>
    by_cases h : u.x < t.x
    · simp only [insertByX, if_pos h]
      exact (ih.cons u).trans (List.Perm.swap t u us)
    · simp only [insertByX, if_neg h]
      exact List.Perm.refl _

theorem sortByX_perm (l : List Tok) : (sortByX l).Perm l := by
  induction l with
  | nil => exact List.Perm.refl _
  | cons t ts ih => exact (insertByX_perm t (sortByX ts)).trans (ih.cons t)

theorem insertByX_pairwise {t : Tok} {l : List Tok}
    (h : l.Pairwise (fun a b => a.x ≤ b.x)) :
    (insertByX t l).Pairwise (fun a b => a.x ≤ b.x) := by
  induction l with
  | nil => exact List.pairwise_singleton _ _
  | cons u us ih =>
    rcases List.pairwise_cons.mp h with ⟨hu, hus⟩
    by_cases hx : u.x < t.x
    · simp only [insertByX, if_pos hx]
      refine List.pairwise_cons.mpr ⟨?_, ih hus⟩
      intro b hb
      rcases List.mem_cons.mp ((insertByX_perm t us).mem_iff.mp hb) with rfl | hbus
      · exact le_of_lt hx
      · exact hu b hbus
    · simp only [insertByX, if_neg hx]
      have htu : t.x ≤ u.x := not_lt.mp hx
      refine List.pairwise_cons.mpr ⟨?_, h⟩
      intro b hb
      rcases List.mem_cons.mp hb with rfl | hbus
      · exact htu
      · exact le_trans htu (hu b hbus)

theorem sortByX_pairwise (l : List Tok) : (sortByX l).Pairwise (fun a b => a.x ≤ b.x) := by
  induction l with
  | nil => exact List.Pairwise.nil
  | cons t ts ih => exact insertByX_pairwise ih

theorem candidateTest_eq_true_iff (fl : String) (lx ly fw : Int) (t : Tok) :
    candidateTest fl lx ly fw t = true ↔
      (|t.y - ly| < 10 ∧ t.text ≠ fl ∧ ':' ∉ t.text.data ∧ 0 < t.x - lx ∧ t.x - lx < fw) := by
  simp [candidateTest, and_assoc]

theorem mem_surviving {fl : String} {lx ly fw : Int} {toks : List Tok} {t : Tok} :
    t ∈ surviving fl lx ly fw toks ↔ t ∈ toks ∧ candidateTest fl lx ly fw t = true := by
  unfold surviving
  rw [(sortByX_perm _).mem_iff, List.mem_filter]

theorem pyStrip_empty : pyStrip "" = "" := by decide

theorem pyJoin_colon_free (l : List String) (hall : ∀ u ∈ l, ':' ∉ u.data) :
    ':' ∉ (pyJoin " " l).data := by
  induction l with
  | nil => decide
  | cons s rest ih =>
    cases rest with
    | nil => simpa [pyJoin] using hall s (by simp)
    | cons s2 rest2 =>
      have h1 : ':' ∉ s.data := hall s (by simp)
      have h2 : ':' ∉ (pyJoin " " (s2 :: rest2)).data :=
        ih (fun u hu => hall u (by simp [hu]))
      simp only [pyJoin, String.data_append]
      intro hmem
      rcases List.mem_append.mp hmem with h | h
      · rcases List.mem_append.mp h with h' | h'
        · exact h1 h'
        · exact absurd h' (by decide)
      · exact h2 h

/-! ### Helper lemmas about the loops -/

theorem readPoint_eq {d : OcrData} {p : Nat} {t : String} {x y : Int}
    (hwf : WF d) (hp : p < d.level.length)
    (ht : d.text.get? p = some t) (hx : d.left.get? p = some x)
    (hy : d.top.get? p = some y) :
    readPoint d p = some ⟨t, x, y⟩ := by
  have hwlen : p < d.width.length := by rw [hwf.2.2.2.1]; omega
  have hhlen : p < d.height.length := by rw [hwf.2.2.2.2.1]; omega
  have hw := List.get?_eq_get hwlen
  have hh := List.get?_eq_get hhlen
  unfold readPoint
  rw [ht, hx, hy, hw, hh]
  rfl

theorem readPoint_some_of_wf {d : OcrData} {p : Nat} (hwf : WF d)
    (hp : p < d.level.length) :
    ∃ t x y, readPoint d p = some ⟨t, x, y⟩ ∧ d.text.get? p = some t ∧
      d.left.get? p = some x ∧ d.top.get? p = some y := by
  have htlen : p < d.text.length := by rw [hwf.1]; omega
  have hxlen : p < d.left.length := by rw [hwf.2.1]; omega
  have hylen : p < d.top.length := by rw [hwf.2.2.1]; omega
  have ht := List.get?_eq_get htlen
  have hx := List.get?_eq_get hxlen
  have hy := List.get?_eq_get hylen
  exact ⟨_, _, _, readPoint_eq hwf hp ht hx hy, ht, hx, hy⟩

theorem findLabel_no_match {lab : String} {d : OcrData} (hwf : WF d)
    (hall : ∀ u ∈ d.text, pyStartsWith (pyLower u) lab = false) :
    ∀ fuel p, p + fuel ≤ d.level.length → findLabel lab d p fuel = some none := by
  intro fuel
  induction fuel with
  | zero => intro p _; rfl
  | succ n ih =>
    intro p hp
    obtain ⟨t, x, y, hrp, ht, -, -⟩ := readPoint_some_of_wf hwf (show p < d.level.length by omega)
    have hf : pyStartsWith (pyLower t) lab = false := hall t (List.get?_mem ht)
    simp only [findLabel, hrp]
    simp only [hf, Bool.false_eq_true, if_false]
    exact ih (p + 1) (by omega)

theorem findLabel_found {lab : String} {d : OcrData} (hwf : WF d)
    {i : Nat} {t : String} {x y : Int}
    (hi : i < d.level.length) (ht : d.text.get? i = some t)
    (hx : d.left.get? i = some x) (hy : d.top.get? i = some y)
    (hmatch : pyStartsWith (pyLower t) lab = true)
    (hbefore : ∀ u ∈ d.text.take i, pyStartsWith (pyLower u) lab = false) :
    ∀ fuel p, p ≤ i → i < p + fuel → findLabel lab d p fuel = some (some ⟨t, x, y⟩) := by
  intro fuel
  induction fuel with
  | zero => intro p hpi hlt; omega
  | succ n ih =>
    intro p hpi hlt
    obtain ⟨u, xu, yu, hrp, htu, hxu, hyu⟩ :=
      readPoint_some_of_wf hwf (show p < d.level.length by omega)
    rcases Nat.eq_or_lt_of_le hpi with rfl | hplt
    · obtain rfl : u = t := Option.some.inj (htu.symm.trans ht)
      obtain rfl : xu = x := Option.some.inj (hxu.symm.trans hx)
      obtain rfl : yu = y := Option.some.inj (hyu.symm.trans hy)
      simp only [findLabel, hrp]
      simp [hmatch]
    · have hmem : u ∈ d.text.take i := by
        have : (d.text.take i).get? p = some u := by
          rw [List.get?_take hplt]; exact htu
        exact List.get?_mem this
      have hf : pyStartsWith (pyLower u) lab = false := hbefore u hmem
      simp only [findLabel, hrp]
      simp only [hf, Bool.false_eq_true, if_false]
      exact ih (p + 1) (by omega) (by omega)

theorem collectToks_some_of_wf {d : OcrData} (hwf : WF d) :
    ∀ fuel p, p + fuel ≤ d.level.length → ∃ toks, collectToks d p fuel = some toks := by
  intro fuel
  induction fuel with
  | zero => intro p _; exact ⟨[], rfl⟩
  | succ n ih =>
    intro p hp
    obtain ⟨t, x, y, hrp, -, -, -⟩ := readPoint_some_of_wf hwf (show p < d.level.length by omega)
    obtain ⟨toks, htoks⟩ := ih (p + 1) (by omega)
    exact ⟨⟨t, x, y⟩ :: toks, by simp [collectToks, hrp, htoks]⟩

theorem findLabel_congr {lab : String} {d1 d2 : OcrData}
    (h : ∀ p, readPoint d1 p = readPoint d2 p) :
    ∀ fuel p, findLabel lab d1 p fuel = findLabel lab d2 p fuel := by
  intro fuel
  induction fuel with
  | zero => intro p; rfl
  | succ n ih =>
    intro p
    simp only [findLabel, h p]
    cases readPoint d2 p with
    | none => rfl
    | some tok =>
      by_cases hc : pyStartsWith (pyLower tok.text) lab
      · simp [hc]
      · simp [hc, ih (p + 1)]

theorem collectToks_congr {d1 d2 : OcrData}
    (h : ∀ p, readPoint d1 p = readPoint d2 p) :
    ∀ fuel p, collectToks d1 p fuel = collectToks d2 p fuel := by
  intro fuel
  induction fuel with
  | zero => intro p; rfl
  | succ n ih =>
    intro p
    simp only [collectToks, h p]
    cases readPoint d2 p with
    | none => rfl
    | some tok => simp [ih (p + 1)]

/-! ### Claim theorems -/

/-- Claim C1: the spec claims the name decomposer returns a triple of strings
for every input, in particular for strings with two or more commas and for
comma-notation strings whose post-comma remainder has zero or three-or-more
space tokens. The code instead raises: `"a,b,c"` splits on every comma into
three parts, and unpacking them into two variables raises `ValueError`;
`"Doe, X Y Z"` reaches the branch that sets `last_name = None`, so the final
`last_name.strip()` raises `AttributeError`. Both raised exceptions are
modelled as `none` here. -/
theorem nameParse_crash_cases :
    nameParse "a,b,c" = none ∧ nameParse "Doe, X Y Z" = none := by decide

/-- Claim C4: the spec claims that a comma-notation input whose post-comma
remainder splits into zero or at least three tokens yields the pre-comma text
as `first` with `last` and `middle` empty. The code's `else` branch indeed
assigns `first_name = last_name` and `last_name = None`, but the function then
unconditionally evaluates `last_name.strip()`, which raises `AttributeError`
on `None`, so that branch can never return. -/
theorem nameParse_malformed_comma_crash : nameParse "Smith, A B C" = none := by decide

/-- Claim C9: for every comma-free input, the name decomposer splits on
spaces and assigns three tokens to (first, middle, last), two tokens to
(first, middle) with last empty, one token to first only, and zero or at
least four tokens to all three components empty; each returned component is
whitespace-trimmed. (A split on a one-character separator is never the empty
list, so the zero-token disjunct is vacuous; the catch-all branch still
covers it with all fields empty.) -/
theorem nameParse_space_form (text : String) (hc : ',' ∉ text.data) :
    (∀ f m l, pySplit ' ' text = [f, m, l] →
      nameParse text = some (pyStrip f, pyStrip m, pyStrip l)) ∧
    (∀ f m, pySplit ' ' text = [f, m] →
      nameParse text = some (pyStrip f, pyStrip m, "")) ∧
    (∀ f, pySplit ' ' text = [f] → nameParse text = some (pyStrip f, "", "")) ∧
    (pySplit ' ' text = [] ∨ 4 ≤ (pySplit ' ' text).length →
      nameParse text = some ("", "", "")) := by
  refine ⟨?_, ?_, ?_, ?_⟩
  · intro f m l hs
    simp [nameParse, hc, hs]
  · intro f m hs
    simp [nameParse, hc, hs, pyStrip_empty]
  · intro f hs
    simp [nameParse, hc, hs, pyStrip_empty]
  · intro hlen
    rcases hsp : pySplit ' ' text with _ | ⟨a, _ | ⟨b, _ | ⟨c3, _ | ⟨d4, rest⟩⟩⟩⟩
    · simp [nameParse, hc, hsp, pyStrip_empty]
    · rw [hsp] at hlen; simp at hlen
    · rw [hsp] at hlen; simp at hlen
    · rw [hsp] at hlen; simp at hlen
    · simp [nameParse, hc, hsp, pyStrip_empty]

/-- Witness for nameParse_space_form: the spec's own example. -/
theorem nameParse_space_form_witness :
    nameParse "John Robert Smith" = some (pyStrip "John", pyStrip "Robert", pyStrip "Smith") :=
  (nameParse_space_form "John Robert Smith" (by decide)).1 "John" "Robert" "Smith" (by decide)

/-- Claim C3 (amended): `extract_field` never absorbs a colon-bearing token —
any value string it returns contains no colon character at all. (As
originally stated the claim also covered the dedicated Name path
`extract_name`, whose candidate condition has no colon test; see
`extract_name_colon_counterexample`.) -/
theorem extract_field_no_colon (label : String) (fw : Int) (d : OcrData) (s : String)
    (h : extract_field label fw d = some s) : ':' ∉ s.data := by
  unfold extract_field at h
  cases hF : findLabel (pyLower label) d 0 d.level.length with
  | none => rw [hF] at h; simp at h
  | some o =>
    cases o with
    | none =>
      rw [hF] at h
      simp only [] at h
      obtain rfl : pyJoin " " [] = s := Option.some.inj h
      decide
    | some lab =>
      rw [hF] at h
      cases hC : collectToks d 0 d.level.length with
      | none => rw [hC] at h; simp at h
      | some toks =>
        rw [hC] at h
        obtain rfl : associate lab.text lab.x lab.y fw toks = s := Option.some.inj h
        unfold associate
        apply pyJoin_colon_free
        intro u hu
        obtain ⟨tt, htt, rfl⟩ := List.mem_map.mp hu
        exact ((candidateTest_eq_true_iff _ _ _ _ _).mp (mem_surviving.mp htt).2).2.2.1

/-- Witness for extract_field_no_colon at concrete data. -/
theorem extract_field_no_colon_witness : ':' ∉ ("12345" : String).data :=
  extract_field_no_colon "Visit" 100
    ⟨[0, 0], ["Visit", "12345"], [0, 50], [0, 0], [1, 1], [1, 1], [0, 0]⟩ "12345" (by decide)

/-- Counterexample to claim C3 as stated: the Name field path `extract_name`
has no colon filter, so its assembled value string absorbs the colon-bearing
token `"John:"`. -/
theorem extract_name_colon_counterexample :
    extract_name_value ⟨[0, 0], ["Name", "John:"], [0, 50], [0, 0], [1, 1], [1, 1], [0, 0]⟩ =
      some "John:" ∧ ':' ∈ ("John:" : String).data := by decide

/-- Claim C6: a token survives as a candidate only if its vertical offset
from the label is strictly below 10 and its horizontal offset is strictly
positive and strictly below the width bound; tokens at exactly the bounds
(vertical offset of exactly 10, zero horizontal offset, or horizontal offset
of exactly the bound) are excluded. -/
theorem candidate_bounds_strict (fl : String) (lx ly fw : Int) (toks : List Tok) (t : Tok) :
    (t ∈ surviving fl lx ly fw toks →
      |t.y - ly| < 10 ∧ 0 < t.x - lx ∧ t.x - lx < fw) ∧
    (10 ≤ |t.y - ly| ∨ t.x - lx ≤ 0 ∨ fw ≤ t.x - lx →
      t ∉ surviving fl lx ly fw toks) := by
  constructor
  · intro hmem
    have hct := (candidateTest_eq_true_iff _ _ _ _ _).mp (mem_surviving.mp hmem).2
    exact ⟨hct.1, hct.2.2.2.1, hct.2.2.2.2⟩
  · intro hbad hmem
    have hct := (candidateTest_eq_true_iff _ _ _ _ _).mp (mem_surviving.mp hmem).2
    rcases hbad with hb | hb | hb
    · exact absurd hct.1 (not_lt.mpr hb)
    · exact absurd hct.2.2.2.1 (not_lt.mpr hb)
    · exact absurd hct.2.2.2.2 (not_lt.mpr hb)

/-- Witness for candidate_bounds_strict: a surviving token obeys the strict
bounds, and a token at exactly the width bound is excluded. -/
theorem candidate_bounds_strict_witness :
    (|(3 : Int) - 0| < 10 ∧ 0 < (50 : Int) - 0 ∧ (50 : Int) - 0 < 100) ∧
    (⟨"w", 100, 0⟩ : Tok) ∉ surviving "L" 0 0 100 [⟨"v", 50, 3⟩, ⟨"w", 100, 0⟩] :=
  ⟨(candidate_bounds_strict "L" 0 0 100 [⟨"v", 50, 3⟩, ⟨"w", 100, 0⟩] ⟨"v", 50, 3⟩).1
      (by decide),
   (candidate_bounds_strict "L" 0 0 100 [⟨"v", 50, 3⟩, ⟨"w", 100, 0⟩] ⟨"w", 100, 0⟩).2
      (by decide)⟩

/-- Claim C8: a token whose text equals the chosen label token's text is never
in the candidate value set, so in particular the label token itself never
contributes to its own field's value. -/
theorem label_self_exclusion (fl : String) (lx ly fw : Int) (toks : List Tok) (t : Tok)
    (hmem : t ∈ surviving fl lx ly fw toks) : t.text ≠ fl :=
  ((candidateTest_eq_true_iff _ _ _ _ _).mp (mem_surviving.mp hmem).2).2.1

/-- Witness for label_self_exclusion at a concrete surviving token. -/
theorem label_self_exclusion_witness : (⟨"12345", 50, 0⟩ : Tok).text ≠ "Visit" :=
  label_self_exclusion "Visit" 0 0 100 [⟨"12345", 50, 0⟩] ⟨"12345", 50, 0⟩ (by decide)

/-- Claim C5: the field locator scans in stream-index order and picks the
first token whose lowercased text starts with the lowercased label (a
case-insensitive prefix test); when no token qualifies, no label is selected
and the extracted field value is the empty string rather than an error. -/
theorem locator_first_match (label : String) (fw : Int) (d : OcrData) (hwf : WF d) :
    ((∀ u ∈ d.text, pyStartsWith (pyLower u) (pyLower label) = false) →
      extract_field label fw d = some "") ∧
    (∀ i t x y, i < d.level.length → d.text.get? i = some t →
      d.left.get? i = some x → d.top.get? i = some y →
      pyStartsWith (pyLower t) (pyLower label) = true →
      (∀ u ∈ d.text.take i, pyStartsWith (pyLower u) (pyLower label) = false) →
      findLabel (pyLower label) d 0 d.level.length = some (some ⟨t, x, y⟩)) := by
  constructor
  · intro hall
    unfold extract_field
    rw [findLabel_no_match hwf hall d.level.length 0 (by omega)]
    rfl
  · intro i t x y hi ht hx hy hm hb
    exact findLabel_found hwf hi ht hx hy hm hb d.level.length 0 (by omega) (by omega)

/-- Witness for locator_first_match: an absent label yields the empty value,
and with a non-matching token in front the second token is the one located. -/
theorem locator_first_match_witness :
    extract_field "visit" 100 ⟨[0], ["foo"], [0], [0], [0], [0], [0]⟩ = some "" ∧
    findLabel (pyLower "Vi") ⟨[0, 0], ["foo", "Visit"], [1, 5], [2, 7], [3, 3], [4, 4], [0, 0]⟩
      0 2 = some (some ⟨"Visit", 5, 7⟩) :=
  ⟨(locator_first_match "visit" 100 ⟨[0], ["foo"], [0], [0], [0], [0], [0]⟩ (by decide)).1
      (by decide),
   (locator_first_match "Vi" 0 ⟨[0, 0], ["foo", "Visit"], [1, 5], [2, 7], [3, 3], [4, 4], [0, 0]⟩
      (by decide)).2 1 "Visit" 5 7 (by decide) (by decide) (by decide) (by decide) (by decide)
      (by decide)⟩

/-- Claim C2 (amended): there is no confidence filter at all — `extract_field`
never reads the `conf` array, so its result is unchanged under arbitrary
replacement of `conf`; in particular tokens with confidence below the spec's
10.0 floor are not excluded (see `conf_filter_counterexample`), and confidence
is likewise never consulted when locating the label. -/
theorem extract_field_conf_independent (label : String) (fw : Int) (d : OcrData)
    (c : List Int) :
    extract_field label fw { d with conf := c } = extract_field label fw d := by
  have h : ∀ p, readPoint { d with conf := c } p = readPoint d p := fun _ => rfl
  unfold extract_field
  rw [show ({ d with conf := c } : OcrData).level = d.level from rfl,
    findLabel_congr h d.level.length 0, collectToks_congr h d.level.length 0]

/-- Counterexample to claim C2 as stated: the token `"5"` has confidence 3,
strictly below the claimed 10.0 floor, yet its text is the returned value. -/
theorem conf_filter_counterexample :
    extract_field "Age" 100 ⟨[0, 0], ["Age", "5"], [0, 50], [0, 0], [1, 1], [1, 1], [95, 3]⟩ =
      some "5" ∧
    (⟨[0, 0], ["Age", "5"], [0, 50], [0, 0], [1, 1], [1, 1], [95, 3]⟩ : OcrData).conf.get? 1 =
      some 3 ∧
    (⟨[0, 0], ["Age", "5"], [0, 50], [0, 0], [1, 1], [1, 1], [95, 3]⟩ : OcrData).text.get? 1 =
      some "5" ∧ (3 : Int) < 10 := by decide

/-- Claim C10: on well-formed token data (index-aligned parallel arrays, the
token-source contract), the result of `extract_field` depends only on the
label, the width bound, the `text`, `left` and `top` arrays and the length of
the `level` array: two data sets agreeing on those — with arbitrarily
different `conf`, `width`, `height` and `level` contents — yield the same
result. -/
theorem extract_field_frame (label : String) (fw : Int) (d1 d2 : OcrData)
    (h1 : WF d1) (h2 : WF d2) (htext : d1.text = d2.text) (hleft : d1.left = d2.left)
    (htop : d1.top = d2.top) (hlen : d1.level.length = d2.level.length) :
    extract_field label fw d1 = extract_field label fw d2 := by
  have hrp : ∀ p, readPoint d1 p = readPoint d2 p := by
    intro p
    by_cases hp : p < d1.level.length
    · obtain ⟨t, x, y, h1rp, ht, hx, hy⟩ := readPoint_some_of_wf h1 hp
      have hp2 : p < d2.level.length := by omega
      rw [h1rp, readPoint_eq h2 hp2 (htext ▸ ht) (hleft ▸ hx) (htop ▸ hy)]
    · have hn1 : d1.text.get? p = none := List.get?_eq_none.mpr (by rw [h1.1]; omega)
      have hn2 : d2.text.get? p = none := by rw [← htext]; exact hn1
      unfold readPoint
      rw [hn1, hn2]
      rfl
  unfold extract_field
  rw [hlen, findLabel_congr hrp d2.level.length 0, collectToks_congr hrp d2.level.length 0]

/-- Witness for extract_field_frame: the two data sets differ in the
contents of `level`, `width`, `height` and `conf` but agree on everything the
result depends on. -/
theorem extract_field_frame_witness :
    extract_field "Age" 100 ⟨[0, 0], ["Age", "5"], [0, 50], [0, 0], [1, 1], [1, 1], [95, 3]⟩ =
      extract_field "Age" 100 ⟨[7, 8], ["Age", "5"], [0, 50], [0, 0], [9, 9], [4, 2], [0, 0]⟩ :=
  extract_field_frame "Age" 100 _ _ (by decide) (by decide) rfl rfl rfl rfl

/-- Claim C7 (amended): for a fixed label token, the associator returns the
surviving candidates' texts joined by single spaces in ascending (weakly
increasing) x order, the empty string when none survive; and the result is
invariant under permutation of the input token sequence provided the
surviving candidates have pairwise distinct x-coordinates — with tied
x-coordinates the stable sort preserves input order, so permuting tied tokens
can change the output (see `associate_perm_counterexample`). -/
theorem associate_sorted_perm_invariant (fl : String) (lx ly fw : Int)
    (toks toks2 : List Tok) (hperm : toks.Perm toks2)
    (hdist : (toks.filter (candidateTest fl lx ly fw)).Pairwise (fun a b => a.x ≠ b.x)) :
    (surviving fl lx ly fw toks).Pairwise (fun a b => a.x ≤ b.x) ∧
    (toks.filter (candidateTest fl lx ly fw) = [] → associate fl lx ly fw toks = "") ∧
    associate fl lx ly fw toks = associate fl lx ly fw toks2 := by
  refine ⟨sortByX_pairwise _, ?_, ?_⟩
  · intro hnil
    unfold associate surviving
    rw [hnil]
    rfl
  · have hpf : (toks.filter (candidateTest fl lx ly fw)).Perm
        (toks2.filter (candidateTest fl lx ly fw)) := hperm.filter _
    have hdist2 : (toks2.filter (candidateTest fl lx ly fw)).Pairwise
        (fun a b => a.x ≠ b.x) :=
      (List.Perm.pairwise_iff (fun h => Ne.symm h) hpf).mp hdist
    have hne1 : (sortByX (toks.filter (candidateTest fl lx ly fw))).Pairwise
        (fun a b => a.x ≠ b.x) :=
      (List.Perm.pairwise_iff (fun h => Ne.symm h) (sortByX_perm _)).mpr hdist
    have hne2 : (sortByX (toks2.filter (candidateTest fl lx ly fw))).Pairwise
        (fun a b => a.x ≠ b.x) :=
      (List.Perm.pairwise_iff (fun h => Ne.symm h) (sortByX_perm _)).mpr hdist2
    have hsort1 : (sortByX (toks.filter (candidateTest fl lx ly fw))).Pairwise
        (fun a b : Tok => a.x < b.x ∨ a = b) :=
      ((sortByX_pairwise _).and hne1).imp (fun hab => Or.inl (lt_of_le_of_ne hab.1 hab.2))
    have hsort2 : (sortByX (toks2.filter (candidateTest fl lx ly fw))).Pairwise
        (fun a b : Tok => a.x < b.x ∨ a = b) :=
      ((sortByX_pairwise _).and hne2).imp (fun hab => Or.inl (lt_of_le_of_ne hab.1 hab.2))
    have hss : (sortByX (toks.filter (candidateTest fl lx ly fw))).Perm
        (sortByX (toks2.filter (candidateTest fl lx ly fw))) :=
      (sortByX_perm _).trans (hpf.trans (sortByX_perm _).symm)
    haveI : IsAntisymm Tok (fun a b : Tok => a.x < b.x ∨ a = b) := ⟨by
      intro a b hab hba
      rcases hab with h | h
      · rcases hba with h' | h'
        · exact absurd (lt_trans h h') (lt_irrefl _)
        · exact h'.symm
      · exact h⟩
    have heq : sortByX (toks.filter (candidateTest fl lx ly fw)) =
        sortByX (toks2.filter (candidateTest fl lx ly fw)) :=
      List.eq_of_perm_of_sorted hss hsort1 hsort2
    unfold associate surviving
    rw [heq]

/-- Witness for associate_sorted_perm_invariant: distinct x-coordinates, so
the two input orders give the same joined value. -/
theorem associate_sorted_perm_invariant_witness :
    associate "L" 0 0 100 [⟨"B", 60, 0⟩, ⟨"A", 50, 0⟩] =
      associate "L" 0 0 100 [⟨"A", 50, 0⟩, ⟨"B", 60, 0⟩] :=
  (associate_sorted_perm_invariant "L" 0 0 100 [⟨"B", 60, 0⟩, ⟨"A", 50, 0⟩]
    [⟨"A", 50, 0⟩, ⟨"B", 60, 0⟩] (List.Perm.swap _ _ _) (by decide)).2.2

/-- Counterexample to claim C7 as stated: two surviving candidates share the
x-coordinate 50, and permuting the input token sequence changes the joined
value string ("A B" versus "B A"), so the output is not invariant under every
permutation of the input. -/
theorem associate_perm_counterexample :
    List.Perm [(⟨"A", 50, 0⟩ : Tok), ⟨"B", 50, 0⟩] [⟨"B", 50, 0⟩, ⟨"A", 50, 0⟩] ∧
    associate "L" 0 0 100 [⟨"A", 50, 0⟩, ⟨"B", 50, 0⟩] ≠
      associate "L" 0 0 100 [⟨"B", 50, 0⟩, ⟨"A", 50, 0⟩] :=
  ⟨List.Perm.swap _ _ _, by decide⟩

end Facesheet
